import Mathlib

/-!
Verification of the `quantum` task-dispatcher library.

The development shallowly embeds the parts of the code that the checked
properties are about:

* `StackAllocator<T, SIZE>` (src/quantum/quantum_stack_allocator.h): the
  compile-time index-width selection `pos_index`, the copy/move/converting
  constructors and assignment operators (declared with inline bodies in the
  header), and the allocate/deallocate state machine.  The member functions
  `allocate`, `deallocate`, `allocatedBlocks`, `allocatedHeapBlocks`,
  `isFull` and `isEmpty` are declared in the header but implemented in
  `quantum/impl/quantum_stack_allocator_impl.h`, which is not part of this
  repository snapshot; their behaviour is modelled from the spec.
* `TaskDispatcher` (src/quantum/quantum_dispatcher.h): the header declares
  `post`, `postFirst`, `postAsyncIo`, `drain`, `terminate` and the members
  `_drain` and `_terminated`; the implementation header
  `quantum/impl/quantum_dispatcher_impl.h` and the `Queue`, `Task` and
  `Context` classes are not in the snapshot, so their behaviour (queue
  priorities, continuation chains, drain gating, terminate) is modelled
  from the spec.

Machine integers are modelled as `Nat`/`Int`; pointers returned by the
allocator as a sum of a slab index and a heap block.
-/

namespace Quantum

/-! ## StackAllocator: compile-time index selection (from the source header)

The source defines `template <int N> struct index` with specialisations
`index<0>::type = unsigned int`, `index<1>::type = unsigned short`,
`index<2>::type = unsigned char`, and
`pos_index<N>::I = N <= 255 ? 2 : N <= 65535 ? 1 : 0`,
`pos_index<N>::type = index<I>::type`.  `StackAllocator` sets
`index_type = pos_index<SIZE>::type`. -/

/-- The three C integer types a `pos_index` selection can produce. -/
inductive CIntType where
  | uchar
  | ushort
  | uint
deriving DecidableEq

/-- Bit width of each C integer type on the platforms the source targets
(`unsigned char` 8 bits, `unsigned short` 16, `unsigned int` 32). -/
def CIntType.bits : CIntType → Nat
  | .uchar => 8
  | .ushort => 16
  | .uint => 32

/-- `index<N>::type` from the source: specialisation 2 yields
`unsigned char`, 1 yields `unsigned short`, the primary template (0)
yields `unsigned int`. -/
def indexTypeOf (I : Nat) : CIntType :=
  match I with
  | 2 => CIntType.uchar
  | 1 => CIntType.ushort
  | _ => CIntType.uint

/-- `pos_index<N>::I` from the source:
`N <= numeric_limits<unsigned char>::max() ? 2 :
 N <= numeric_limits<unsigned short>::max() ? 1 : 0`. -/
def pos_index_I (N : Nat) : Nat :=
  if N ≤ 255 then 2 else if N ≤ 65535 then 1 else 0

/-- `StackAllocator<T,SIZE>::index_type = pos_index<SIZE>::type`. -/
def index_type (SIZE : Nat) : CIntType :=
  indexTypeOf (pos_index_I SIZE)

/-! ## StackAllocator: allocation state

Header members: `_freeBlocks[SIZE]` together with `_freeBlockIndex{SIZE-1}`
form a stack of free slab indices (modelled as the list `freeStack`, top
first), and `_numHeapAllocatedBlocks{0}` counts heap-fallback blocks.
`liveSlab` is a ghost component recording which slab indices are currently
handed out; the member functions never read it. -/

/-- A pointer handed out by the allocator: either a cell of the slab
buffer, identified by its block index, or a heap block. -/
inductive Ptr where
  | slab (i : Nat)
  | heap
deriving DecidableEq

/-- Allocator state: the free-index stack, the heap counter, and the ghost
list of live slab indices. -/
structure AllocState where
  freeStack : List Nat
  numHeapAllocatedBlocks : Nat
  liveSlab : List Nat
deriving DecidableEq

/-- Freshly constructed allocator: every slab index is free (the source
default constructor fills `_freeBlocks[i] = i` with
`_freeBlockIndex = SIZE-1`, so index `SIZE-1` is on top) and the heap
counter is zero. -/
def initState (SIZE : Nat) : AllocState :=
  { freeStack := (List.range SIZE).reverse
    numHeapAllocatedBlocks := 0
    liveSlab := [] }

/-- Modelled from the spec: `allocate` (implemented in the missing
`quantum_stack_allocator_impl.h`) pops a free index, returning a pointer
into the slab; when the stack is empty, it falls back to heap allocation
and increments a counter. -/
def allocate (s : AllocState) : Ptr × AllocState :=
  match s.freeStack with
  | i :: rest =>
      (Ptr.slab i,
       { freeStack := rest
         numHeapAllocatedBlocks := s.numHeapAllocatedBlocks
         liveSlab := i :: s.liveSlab })
  | [] =>
      (Ptr.heap,
       { s with numHeapAllocatedBlocks := s.numHeapAllocatedBlocks + 1 })

/-- Modelled from the spec: `deallocate` (implementation missing) checks
whether the pointer lies in the slab; slab pointers push their index back;
heap pointers are freed directly and the counter decremented. -/
def deallocate (s : AllocState) (p : Ptr) : AllocState :=
  match p with
  | Ptr.slab i =>
      { freeStack := i :: s.freeStack
        numHeapAllocatedBlocks := s.numHeapAllocatedBlocks
        liveSlab := s.liveSlab.erase i }
  | Ptr.heap =>
      { s with numHeapAllocatedBlocks := s.numHeapAllocatedBlocks - 1 }

/-- Modelled from the spec: `allocatedHeapBlocks()` (implementation
missing) returns the heap-fallback counter. -/
def allocatedHeapBlocks (s : AllocState) : Nat :=
  s.numHeapAllocatedBlocks

/-- Modelled from the spec: `allocatedBlocks()` (implementation missing)
returns the slab blocks in use plus the heap blocks, per the spec
invariant `allocatedBlocks == slabCount + allocatedHeapBlocks`; slab
blocks in use are `SIZE` minus the free-stack height. -/
def allocatedBlocks (SIZE : Nat) (s : AllocState) : Nat :=
  (SIZE - s.freeStack.length) + s.numHeapAllocatedBlocks

/-- Modelled from the spec: `isFull()` (implementation missing) holds when
the slab is exhausted, i.e. the free-index stack is empty. -/
def isFull (s : AllocState) : Bool :=
  s.freeStack.isEmpty

/-- Modelled from the spec: `isEmpty()` (implementation missing) holds
when no blocks are allocated. -/
def isEmpty (SIZE : Nat) (s : AllocState) : Bool :=
  decide (allocatedBlocks SIZE s = 0)

/-! ## StackAllocator: operation sequences -/

/-- One client operation on the allocator: an `allocate`, or a
`deallocate` of a slab pointer with block index `i`, or a `deallocate` of
a heap pointer. -/
inductive AllocOp where
  | alloc
  | deallocSlab (i : Nat)
  | deallocHeap
deriving DecidableEq

/-- State effect of one operation. -/
def stepOp (s : AllocState) : AllocOp → AllocState
  | AllocOp.alloc => (allocate s).2
  | AllocOp.deallocSlab i => deallocate s (Ptr.slab i)
  | AllocOp.deallocHeap => deallocate s Ptr.heap

/-- Run a sequence of operations. -/
def execOps (s : AllocState) (ops : List AllocOp) : AllocState :=
  ops.foldl stepOp s

/-- An operation is valid in state `s` when it deallocates only a live
pointer: a slab pointer currently handed out, or a heap block while the
heap counter is positive.  `allocate` is always valid. -/
def validOp (s : AllocState) : AllocOp → Bool
  | AllocOp.alloc => true
  | AllocOp.deallocSlab i => decide (i ∈ s.liveSlab)
  | AllocOp.deallocHeap => decide (0 < s.numHeapAllocatedBlocks)

/-- A sequence of operations is valid from `s` when each operation is
valid in the state reached by its predecessors. -/
def validOps : AllocState → List AllocOp → Bool
  | _, [] => true
  | s, op :: ops => validOp s op && validOps (stepOp s op) ops

/-- Number of `allocate` calls in a sequence. -/
def countAllocs (ops : List AllocOp) : Nat :=
  ops.countP fun op => match op with
    | AllocOp.alloc => true
    | _ => false

/-- Number of `deallocate` calls in a sequence. -/
def countDeallocs (ops : List AllocOp) : Nat :=
  ops.countP fun op => match op with
    | AllocOp.alloc => false
    | _ => true

/-- Total live blocks: live slab indices plus heap blocks. -/
def liveTotal (s : AllocState) : Nat :=
  s.liveSlab.length + s.numHeapAllocatedBlocks

/-! ## StackAllocator: constructors and assignment (from the source header)

The header defines, inline:
`StackAllocator(const this_type&) : StackAllocator() {}`,
`StackAllocator(this_type&&) : StackAllocator() {}`,
`template <U> StackAllocator(const StackAllocator<U,SIZE>&) : StackAllocator() {}`
— each delegates to the default constructor and reads nothing from its
argument — and three assignment operators with empty bodies `{}`.  The
empty bodies make assignment a no-op on both operands; the source omits
the `return` statement, so the returned reference follows the spec's
adopted resolution (`*this`). -/

/-- Copy constructor: delegates to the default constructor, transferring
no state from the source. -/
def copyCtor (SIZE : Nat) (_source : AllocState) : AllocState :=
  initState SIZE

/-- Move constructor: delegates to the default constructor, transferring
no state from the source. -/
def moveCtor (SIZE : Nat) (_source : AllocState) : AllocState :=
  initState SIZE

/-- Converting constructor from `StackAllocator<U,SIZE>`: delegates to the
default constructor, transferring no state from the source. -/
def convCtor (SIZE : Nat) (_source : AllocState) : AllocState :=
  initState SIZE

/-- Result of an assignment expression: the post-states of both operands
and the value of the expression (the reference the operator returns,
modelled by the state of the object it refers to). -/
structure AssignResult where
  newTarget : AllocState
  newSource : AllocState
  returned : AllocState
deriving DecidableEq

/-- Copy assignment `operator=(const this_type&)`: empty body, so both
operands keep their state; the returned reference is `*this` per the
spec's resolution of the missing return. -/
def assignCopy (target source : AllocState) : AssignResult :=
  { newTarget := target, newSource := source, returned := target }

/-- Move assignment `operator=(this_type&&)`: empty body, no-op on both
operands; returns `*this`. -/
def assignMove (target source : AllocState) : AssignResult :=
  { newTarget := target, newSource := source, returned := target }

/-- Converting assignment `operator=(const StackAllocator<U,SIZE>&)`:
empty body, no-op on both operands; returns `*this`. -/
def assignConv (target source : AllocState) : AssignResult :=
  { newTarget := target, newSource := source, returned := target }

/-! ## Continuation chains

The chaining machinery (`Context`, `then`/`onError`/`finally`, the worker
handoff run after a task finishes) lives in headers outside this snapshot;
it is modelled from the spec (§4.4): on success the next task is enqueued;
on a non-zero status, non-error successors are skipped until an
error-handling successor or a `finally` is found, and if none exists the
final future of the chain is set to the error; the terminal future is set
exactly once, when the walk terminates. -/

/-- Scheduling class of a continuation-chain member: a regular successor,
an error-handling successor, or a `finally`-class terminator. -/
inductive TaskKind where
  | regular
  | onError
  | finallyTask
deriving DecidableEq

/-- A chain member: its class and the outcome of running it — a status
(0 = success, non-zero = user error code) and the value it would produce
on success. -/
structure ChainTask where
  kind : TaskKind
  status : Nat
  value : Nat
deriving DecidableEq

/-- Outcome of running one task: its value on status 0, its status as a
user error otherwise. -/
def execTask (t : ChainTask) : Except Nat Nat :=
  if t.status = 0 then Except.ok t.value else Except.error t.status

/-- Modelled from the spec: whether a successor runs when the current
status is an error — only error-handling and `finally` successors do. -/
def runsAfterError : TaskKind → Bool
  | TaskKind.regular => false
  | TaskKind.onError => true
  | TaskKind.finallyTask => true

/-- Modelled from the spec: walk the continuation list with the current
outcome; successful outcomes enqueue the next task, errors skip
non-error successors; the result is the value the terminal future is set
to. -/
def chainExec : List ChainTask → Except Nat Nat → Except Nat Nat
  | [], cur => cur
  | t :: rest, cur =>
      match cur with
      | Except.ok _ => chainExec rest (execTask t)
      | Except.error _ =>
          if runsAfterError t.kind then chainExec rest (execTask t)
          else chainExec rest cur

/-- The writes performed on the chain's terminal future during the walk:
the future is assigned when the walk runs out of successors. -/
def chainWrites : List ChainTask → Except Nat Nat → List (Except Nat Nat)
  | [], cur => [cur]
  | t :: rest, cur =>
      match cur with
      | Except.ok _ => chainWrites rest (execTask t)
      | Except.error _ =>
          if runsAfterError t.kind then chainWrites rest (execTask t)
          else chainWrites rest cur

/-- The chain members that actually execute during the walk, in order. -/
def executedTasks : List ChainTask → Except Nat Nat → List ChainTask
  | [], _ => []
  | t :: rest, cur =>
      match cur with
      | Except.ok _ => t :: executedTasks rest (execTask t)
      | Except.error _ =>
          if runsAfterError t.kind then t :: executedTasks rest (execTask t)
          else executedTasks rest cur

/-! ## Queue

The `Queue` class is not in this snapshot; modelled from the spec (§4.2):
two deques per queue, high-priority and normal; `enqueue(task,
highPriority)` appends to the chosen deque; dequeue drains high-priority
FIFO first and, when it is empty, normal FIFO.  Tasks are identified by
numbers. -/

/-- A per-worker queue: the high-priority section and the normal section,
front of each list first. -/
structure WorkQueue where
  high : List Nat
  normal : List Nat
deriving DecidableEq

/-- A queue with both sections empty. -/
def emptyQueue : WorkQueue :=
  { high := [], normal := [] }

/-- Modelled from the spec: `enqueue(task, highPriority)` appends to the
chosen deque. -/
def enqueue (q : WorkQueue) (t : Nat) (isHighPriority : Bool) : WorkQueue :=
  if isHighPriority then { q with high := q.high ++ [t] }
  else { q with normal := q.normal ++ [t] }

/-- Modelled from the spec: dequeue pops the front of the high-priority
section; only when it is empty, the front of the normal section.  The
Boolean records which section the task came from (`true` = high). -/
def dequeue (q : WorkQueue) : Option ((Nat × Bool) × WorkQueue) :=
  match q.high with
  | t :: ts => some ((t, true), { high := ts, normal := q.normal })
  | [] =>
      match q.normal with
      | t :: ts => some ((t, false), { high := [], normal := ts })
      | [] => none

/-- One event at a queue: a producer enqueue, or a dequeue by the owning
worker. -/
inductive QOp where
  | enq (t : Nat) (hi : Bool)
  | deq
deriving DecidableEq

/-- Execution record of a queue: its current state and the tasks dequeued
so far from each section, in dequeue order. -/
structure QRun where
  q : WorkQueue
  outHigh : List Nat
  outNorm : List Nat
deriving DecidableEq

/-- Effect of one queue event on the execution record. -/
def qstep (r : QRun) : QOp → QRun
  | QOp.enq t hi => { r with q := enqueue r.q t hi }
  | QOp.deq =>
      match dequeue r.q with
      | none => r
      | some ((t, true), q2) =>
          { q := q2, outHigh := r.outHigh ++ [t], outNorm := r.outNorm }
      | some ((t, false), q2) =>
          { q := q2, outHigh := r.outHigh, outNorm := r.outNorm ++ [t] }

/-- Run a sequence of queue events. -/
def qexec (r : QRun) (ops : List QOp) : QRun :=
  ops.foldl qstep r

/-- The tasks enqueued with high priority, in program order. -/
def enqHigh (ops : List QOp) : List Nat :=
  ops.filterMap fun op => match op with
    | QOp.enq t true => some t
    | _ => none

/-- The tasks enqueued with normal priority, in program order. -/
def enqNorm (ops : List QOp) : List Nat :=
  ops.filterMap fun op => match op with
    | QOp.enq t false => some t
    | _ => none

/-! ## Dispatcher: postAsyncIo validation, terminate, drain

`postAsyncIoImpl`, `DispatcherCore` and `IQueue` are not in this
snapshot; the header declares `postAsyncIo(int queueId, bool
isHighPriority, ...)`, `terminate()`, `drain()` and the members `_drain`
and `_terminated` (an `std::atomic_flag`).  Behaviour is modelled from
the spec. -/

/-- Error kinds of the library (spec §7). -/
inductive ErrorKind where
  | invalidArgument
  | invalidState
  | resourceExhausted
  | terminatedTask
  | userError (code : Nat)
deriving DecidableEq

/-- The `queueId` argument of a post: one of the `IQueue::QueueId`
sentinels (`Any`, `Same`, `All`) or an explicit numeric id. -/
inductive QueueIdParam where
  | anyQueue
  | sameQueue
  | allQueues
  | atQueue (n : Int)
deriving DecidableEq

/-- Resident tasks of a queue, both sections. -/
def queueSize (q : WorkQueue) : Nat :=
  q.high.length + q.normal.length

/-- Modelled from the spec: auto-selection picks the queue with the
minimum resident size (first such index). -/
def selectIoQueue : List WorkQueue → Nat
  | [] => 0
  | [_] => 0
  | q :: qs =>
      let j := selectIoQueue qs
      if queueSize q ≤ queueSize (qs.getD j emptyQueue) then 0 else j + 1

/-- Enqueue a task on queue `k` of a pool. -/
def enqueueAt (queues : List WorkQueue) (k : Nat) (t : Nat) (hi : Bool) :
    List WorkQueue :=
  queues.set k (enqueue (queues.getD k emptyQueue) t hi)

/-- Modelled from the spec: `postAsyncIo` with an explicit queueId.
`Any` auto-selects over the I/O pool; an explicit id must lie in
`[0, numIoThreads)`; anything else is rejected synchronously with
`InvalidArgument` before the task is enqueued (the returned pool is the
unchanged input).  The spec resolves the header comment's
`[0, numCoroutineThreads)` range as a typo for `[0, numIoThreads)`. -/
def postAsyncIo (numIoThreads : Nat) (queues : List WorkQueue)
    (queueId : QueueIdParam) (isHighPriority : Bool) (task : Nat) :
    Except ErrorKind Unit × List WorkQueue :=
  match queueId with
  | QueueIdParam.anyQueue =>
      (Except.ok (), enqueueAt queues (selectIoQueue queues) task isHighPriority)
  | QueueIdParam.atQueue n =>
      if 0 ≤ n ∧ n < (numIoThreads : Int) then
        (Except.ok (), enqueueAt queues n.toNat task isHighPriority)
      else
        (Except.error ErrorKind.invalidArgument, queues)
  | _ => (Except.error ErrorKind.invalidArgument, queues)

/-- Whether a post's synchronous result reports acceptance. -/
def isAccepted (r : Except ErrorKind Unit) : Bool :=
  match r with
  | Except.ok _ => true
  | Except.error _ => false

/-- Observable dispatcher state for the shutdown path: the `_terminated`
flag, how many times the queues have been signalled to exit, how many
times the workers have been joined, and whether worker threads are
alive. -/
structure Dispatcher where
  terminated : Bool
  queueSignalCount : Nat
  workerJoinCount : Nat
  workersAlive : Bool
deriving DecidableEq

/-- Modelled from the spec: `terminate()` raises the terminated flag once
(idempotent via a test-and-set on `_terminated`), and only on the first
call signals all queues and joins all workers. -/
def terminate (d : Dispatcher) : Dispatcher :=
  if d.terminated then d
  else
    { terminated := true
      queueSignalCount := d.queueSignalCount + 1
      workerJoinCount := d.workerJoinCount + 1
      workersAlive := false }

/-- Modelled from the spec: while the `_drain` flag is set, posting of new
tasks is disabled unless they are posted from within an already executing
task; an accepted post enqueues the task on its target queue.  `none`
models a rejected post (the pool is untouched). -/
def tryPost (drainFlag : Bool) (fromWithinTask : Bool)
    (queues : List WorkQueue) (queueId : Nat) (isHighPriority : Bool)
    (task : Nat) : Option (List WorkQueue) :=
  if drainFlag && !fromWithinTask then none
  else some (enqueueAt queues queueId task isHighPriority)

/-! ## Theorems -/

theorem execOps_cons (s : AllocState) (op : AllocOp) (ops : List AllocOp) :
    execOps s (op :: ops) = execOps (stepOp s op) ops := rfl

theorem stepOp_alloc_freeStack (s : AllocState) :
    (stepOp s AllocOp.alloc).freeStack = s.freeStack.drop 1 := by
  rcases s with ⟨fs, nh, ls⟩
  cases fs <;> rfl

theorem execOps_replicate_alloc (n : Nat) (s : AllocState) :
    (execOps s (List.replicate n AllocOp.alloc)).freeStack = s.freeStack.drop n := by
  induction n generalizing s with
  | zero => simp [execOps]
  | succ k ih =>
      rw [List.replicate_succ, execOps_cons, ih, stepOp_alloc_freeStack,
        List.drop_drop, Nat.add_comm]

theorem allocate_exhausted (s : AllocState) (h : s.freeStack = []) :
    (allocate s).1 = Ptr.heap
    ∧ allocatedHeapBlocks (allocate s).2 = allocatedHeapBlocks s + 1 := by
  rcases s with ⟨fs, nh, ls⟩
  simp only at h
  subst h
  exact ⟨rfl, rfl⟩

theorem liveTotal_stepOp_alloc (s : AllocState) :
    liveTotal (stepOp s AllocOp.alloc) = liveTotal s + 1 := by
  rcases s with ⟨fs, nh, ls⟩
  cases fs <;> simp [stepOp, allocate, liveTotal] <;> omega

theorem liveTotal_stepOp_deallocSlab (s : AllocState) (i : Nat)
    (h : i ∈ s.liveSlab) :
    liveTotal (stepOp s (AllocOp.deallocSlab i)) + 1 = liveTotal s := by
  have hlen := List.length_erase_of_mem h
  have hpos : 0 < s.liveSlab.length := List.length_pos.mpr (by
    intro he
    rw [he] at h
    exact absurd h (List.not_mem_nil i))
  simp [stepOp, deallocate, liveTotal, hlen]
  omega

theorem liveTotal_stepOp_deallocHeap (s : AllocState)
    (h : 0 < s.numHeapAllocatedBlocks) :
    liveTotal (stepOp s AllocOp.deallocHeap) + 1 = liveTotal s := by
  simp [stepOp, deallocate, liveTotal]
  omega

theorem liveTotal_execOps (ops : List AllocOp) :
    ∀ s : AllocState, validOps s ops = true →
      liveTotal (execOps s ops) + countDeallocs ops
        = liveTotal s + countAllocs ops := by
  induction ops with
  | nil =>
      intro s _
      simp [execOps, countAllocs, countDeallocs]
  | cons op rest ih =>
      intro s h
      rw [validOps, Bool.and_eq_true] at h
      obtain ⟨h1, h2⟩ := h
      have key := ih (stepOp s op) h2
      rw [execOps_cons]
      cases op with
      | alloc =>
          have hs := liveTotal_stepOp_alloc s
          simp [countAllocs, countDeallocs, List.countP_cons] at key ⊢
          omega
      | deallocSlab i =>
          have hm : i ∈ s.liveSlab := by
            simpa [validOp] using h1
          have hs := liveTotal_stepOp_deallocSlab s i hm
          simp [countAllocs, countDeallocs, List.countP_cons] at key ⊢
          omega
      | deallocHeap =>
          have hp : 0 < s.numHeapAllocatedBlocks := by
            simpa [validOp] using h1
          have hs := liveTotal_stepOp_deallocHeap s hp
          simp [countAllocs, countDeallocs, List.countP_cons] at key ⊢
          omega

theorem wf_execOps (SIZE : Nat) (ops : List AllocOp) :
    ∀ s : AllocState, validOps s ops = true →
      s.freeStack.length + s.liveSlab.length = SIZE →
      (execOps s ops).freeStack.length + (execOps s ops).liveSlab.length
        = SIZE := by
  induction ops with
  | nil =>
      intro s _ hwf
      simpa [execOps] using hwf
  | cons op rest ih =>
      intro s hv hwf
      rw [validOps, Bool.and_eq_true] at hv
      obtain ⟨h1, h2⟩ := hv
      rw [execOps_cons]
      refine ih (stepOp s op) h2 ?_
      cases op with
      | alloc =>
          rcases s with ⟨fs, nh, ls⟩
          cases fs <;> simp [stepOp, allocate] at hwf ⊢ <;> omega
      | deallocSlab i =>
          have hm : i ∈ s.liveSlab := by
            simpa [validOp] using h1
          have hlen := List.length_erase_of_mem hm
          have hpos : 0 < s.liveSlab.length := List.length_pos.mpr (by
            intro he
            rw [he] at hm
            exact absurd hm (List.not_mem_nil i))
          simp [stepOp, deallocate, hlen] at hwf ⊢
          omega
      | deallocHeap =>
          simpa [stepOp, deallocate] using hwf

/-- C1: For every sequence of StackAllocator(T,SIZE) operations with no
deallocations, after exactly SIZE calls to allocate, isFull() returns
true and every subsequent allocate returns a heap pointer and increments
allocatedHeapBlocks(); and for every sequence with equal counts of
allocate and deallocate, isEmpty() returns true. -/
theorem stackAllocator_full_and_empty (SIZE : Nat) :
    isFull (execOps (initState SIZE) (List.replicate SIZE AllocOp.alloc)) = true
    ∧ (∀ k : Nat,
        (allocate (execOps (initState SIZE)
            (List.replicate (SIZE + k) AllocOp.alloc))).1 = Ptr.heap
        ∧ allocatedHeapBlocks (allocate (execOps (initState SIZE)
            (List.replicate (SIZE + k) AllocOp.alloc))).2
          = allocatedHeapBlocks (execOps (initState SIZE)
              (List.replicate (SIZE + k) AllocOp.alloc)) + 1)
    ∧ (∀ ops : List AllocOp, validOps (initState SIZE) ops = true →
        countAllocs ops = countDeallocs ops →
        isEmpty SIZE (execOps (initState SIZE) ops) = true) := by
  have hinit : (initState SIZE).freeStack.length = SIZE := by
    simp [initState]
  refine ⟨?_, ?_, ?_⟩
  · have h1 : (execOps (initState SIZE)
        (List.replicate SIZE AllocOp.alloc)).freeStack = [] := by
      rw [execOps_replicate_alloc]
      exact List.drop_eq_nil_of_le (le_of_eq hinit)
    simp [isFull, h1]
  · intro k
    have h2 : (execOps (initState SIZE)
        (List.replicate (SIZE + k) AllocOp.alloc)).freeStack = [] := by
      rw [execOps_replicate_alloc]
      exact List.drop_eq_nil_of_le (by omega)
    exact allocate_exhausted _ h2
  · intro ops hv hc
    have hlt := liveTotal_execOps ops (initState SIZE) hv
    have h0 : liveTotal (initState SIZE) = 0 := by
      simp [liveTotal, initState]
    have hwf := wf_execOps SIZE ops (initState SIZE) hv (by simp [initState])
    rw [h0, hc] at hlt
    have hfin : liveTotal (execOps (initState SIZE) ops) = 0 := by omega
    simp only [liveTotal] at hfin
    simp only [isEmpty, allocatedBlocks, decide_eq_true_eq]
    omega

theorem stackAllocator_full_and_empty_witness :
    isEmpty 1 (execOps (initState 1)
      [AllocOp.alloc, AllocOp.deallocSlab 0]) = true :=
  (stackAllocator_full_and_empty 1).2.2
    [AllocOp.alloc, AllocOp.deallocSlab 0] (by decide) (by decide)

/-- C2: For every reachable state of a StackAllocator(T,SIZE) (i.e.,
after any sequence of allocate and deallocate calls), allocatedBlocks()
equals the number of live slab blocks plus allocatedHeapBlocks(), and the
number of live slab blocks is at most SIZE. -/
theorem allocatedBlocks_invariant (SIZE : Nat) (ops : List AllocOp)
    (h : validOps (initState SIZE) ops = true) :
    allocatedBlocks SIZE (execOps (initState SIZE) ops)
      = (execOps (initState SIZE) ops).liveSlab.length
        + allocatedHeapBlocks (execOps (initState SIZE) ops)
    ∧ (execOps (initState SIZE) ops).liveSlab.length ≤ SIZE := by
  have hwf := wf_execOps SIZE ops (initState SIZE) h (by simp [initState])
  constructor
  · simp only [allocatedBlocks, allocatedHeapBlocks]
    omega
  · omega

theorem allocatedBlocks_invariant_witness :
    allocatedBlocks 2 (execOps (initState 2) [AllocOp.alloc])
      = (execOps (initState 2) [AllocOp.alloc]).liveSlab.length
        + allocatedHeapBlocks (execOps (initState 2) [AllocOp.alloc])
    ∧ (execOps (initState 2) [AllocOp.alloc]).liveSlab.length ≤ 2 :=
  allocatedBlocks_invariant 2 [AllocOp.alloc] (by decide)

/-- C8: For every SIZE, the StackAllocator's index_type is selected at
compile time from SIZE: an 8-bit unsigned integer when SIZE ≤ 255, a
16-bit unsigned integer when 255 < SIZE ≤ 65535, and a 32-bit unsigned
integer otherwise. -/
theorem index_type_width (SIZE : Nat) :
    (index_type SIZE).bits =
      if SIZE ≤ 255 then 8 else if SIZE ≤ 65535 then 16 else 32 := by
  unfold index_type pos_index_I indexTypeOf
  by_cases h₁ : SIZE ≤ 255
  · simp [h₁, CIntType.bits]
  · by_cases h₂ : SIZE ≤ 65535 <;> simp [h₁, h₂, CIntType.bits]

/-- C9: For every StackAllocator instance and every assignment (copy,
move, or converting) to it, the assignment is a no-op on both operands'
state and returns a reference to the assigned-to instance (*this). -/
theorem assignment_noop (target source : AllocState) :
    (assignCopy target source).newTarget = target
    ∧ (assignCopy target source).newSource = source
    ∧ (assignCopy target source).returned = target
    ∧ (assignMove target source).newTarget = target
    ∧ (assignMove target source).newSource = source
    ∧ (assignMove target source).returned = target
    ∧ (assignConv target source).newTarget = target
    ∧ (assignConv target source).newSource = source
    ∧ (assignConv target source).returned = target := by
  refine ⟨rfl, rfl, rfl, rfl, rfl, rfl, rfl, rfl, rfl⟩

/-- C10: For every StackAllocator source instance in any state,
copy-constructing, move-constructing, or converting-constructing from it
produces a freshly initialized allocator — all SIZE slab blocks free,
allocatedBlocks() == 0 and allocatedHeapBlocks() == 0 — with no state
transferred from the source. -/
theorem ctor_fresh_state (SIZE : Nat) (source : AllocState) :
    copyCtor SIZE source = initState SIZE
    ∧ moveCtor SIZE source = initState SIZE
    ∧ convCtor SIZE source = initState SIZE
    ∧ (initState SIZE).freeStack.length = SIZE
    ∧ allocatedBlocks SIZE (initState SIZE) = 0
    ∧ allocatedHeapBlocks (initState SIZE) = 0 := by
  refine ⟨rfl, rfl, rfl, ?_, ?_, rfl⟩
  · simp [initState]
  · simp [allocatedBlocks, initState]

theorem chainExec_skip_pre (tasks : List ChainTask) (e : Nat) :
    ∀ pre : List ChainTask, (∀ t ∈ pre, t.kind = TaskKind.regular) →
      chainExec (pre ++ tasks) (Except.error e)
        = chainExec tasks (Except.error e) := by
  intro pre
  induction pre with
  | nil => intro _; rfl
  | cons p ps ih =>
      intro h
      have hp : p.kind = TaskKind.regular := h p (List.mem_cons_self p ps)
      have hps : ∀ t ∈ ps, t.kind = TaskKind.regular :=
        fun t ht => h t (List.mem_cons_of_mem p ht)
      calc chainExec ((p :: ps) ++ tasks) (Except.error e)
          = chainExec (ps ++ tasks) (Except.error e) := by
            simp [chainExec, hp, runsAfterError]
        _ = chainExec tasks (Except.error e) := ih hps

theorem executedTasks_skip_pre (tasks : List ChainTask) (e : Nat) :
    ∀ pre : List ChainTask, (∀ t ∈ pre, t.kind = TaskKind.regular) →
      executedTasks (pre ++ tasks) (Except.error e)
        = executedTasks tasks (Except.error e) := by
  intro pre
  induction pre with
  | nil => intro _; rfl
  | cons p ps ih =>
      intro h
      have hp : p.kind = TaskKind.regular := h p (List.mem_cons_self p ps)
      have hps : ∀ t ∈ ps, t.kind = TaskKind.regular :=
        fun t ht => h t (List.mem_cons_of_mem p ht)
      calc executedTasks ((p :: ps) ++ tasks) (Except.error e)
          = executedTasks (ps ++ tasks) (Except.error e) := by
            simp [executedTasks, hp, runsAfterError]
        _ = executedTasks tasks (Except.error e) := ih hps

theorem chainExec_unhandled (tasks : List ChainTask) (e : Nat)
    (h : ∀ t ∈ tasks, t.kind = TaskKind.regular) :
    chainExec tasks (Except.error e) = Except.error e := by
  have := chainExec_skip_pre [] e tasks h
  simpa using this

theorem chainWrites_single (tasks : List ChainTask) :
    ∀ cur : Except Nat Nat, chainWrites tasks cur = [chainExec tasks cur] := by
  induction tasks with
  | nil => intro cur; rfl
  | cons t rest ih =>
      intro cur
      cases cur with
      | ok v => simp [chainWrites, chainExec, ih]
      | error e =>
          cases hr : runsAfterError t.kind <;>
            simp [chainWrites, chainExec, hr, ih]

theorem chainExec_last_executed (tasks : List ChainTask) :
    ∀ cur : Except Nat Nat,
      chainExec tasks cur
        = (executedTasks tasks cur).foldl (fun _ t => execTask t) cur := by
  induction tasks with
  | nil => intro cur; rfl
  | cons t rest ih =>
      intro cur
      cases cur with
      | ok v => simp [chainExec, executedTasks, ih]
      | error e =>
          cases hr : runsAfterError t.kind <;>
            simp [chainExec, executedTasks, hr, ih]

/-- C4: For every continuation chain, when a task finishes with non-zero
status, all non-error-handling successors are skipped until an
error-handling successor or a finally successor is found (the chain's
terminal future is set to the error if none exists), and the terminal
future is set exactly once, with either the last successful task's value
or the first unhandled error. -/
theorem chain_error_skip_and_terminal (pre tasks : List ChainTask) (e : Nat)
    (cur : Except Nat Nat)
    (hpre : ∀ t ∈ pre, t.kind = TaskKind.regular) :
    executedTasks (pre ++ tasks) (Except.error e)
      = executedTasks tasks (Except.error e)
    ∧ chainExec (pre ++ tasks) (Except.error e)
        = chainExec tasks (Except.error e)
    ∧ ((∀ t ∈ tasks, t.kind = TaskKind.regular) →
        chainExec tasks (Except.error e) = Except.error e)
    ∧ chainWrites tasks cur = [chainExec tasks cur]
    ∧ chainExec tasks cur
        = (executedTasks tasks cur).foldl (fun _ t => execTask t) cur := by
  exact ⟨executedTasks_skip_pre tasks e pre hpre,
    chainExec_skip_pre tasks e pre hpre,
    fun h => chainExec_unhandled tasks e h,
    chainWrites_single tasks cur,
    chainExec_last_executed tasks cur⟩

theorem chain_error_skip_and_terminal_witness :
    chainExec
        ([ChainTask.mk TaskKind.regular 0 5]
          ++ [ChainTask.mk TaskKind.onError 0 7])
        (Except.error 3)
      = chainExec [ChainTask.mk TaskKind.onError 0 7] (Except.error 3) :=
  (chain_error_skip_and_terminal
    [ChainTask.mk TaskKind.regular 0 5]
    [ChainTask.mk TaskKind.onError 0 7] 3 (Except.error 3)
    (by decide)).2.1

theorem qexec_cons (r : QRun) (op : QOp) (ops : List QOp) :
    qexec r (op :: ops) = qexec (qstep r op) ops := rfl

theorem qstep_high_stream (r : QRun) (op : QOp) :
    (qstep r op).outHigh ++ (qstep r op).q.high
      = r.outHigh ++ r.q.high ++ enqHigh [op] := by
  cases op with
  | enq t hi =>
      cases hi <;> simp [qstep, enqueue, enqHigh]
  | deq =>
      rcases r with ⟨⟨qh, qn⟩, outH, outN⟩
      cases qh with
      | nil => cases qn <;> simp [qstep, dequeue, enqHigh]
      | cons h hs => simp [qstep, dequeue, enqHigh]

theorem qstep_norm_stream (r : QRun) (op : QOp) :
    (qstep r op).outNorm ++ (qstep r op).q.normal
      = r.outNorm ++ r.q.normal ++ enqNorm [op] := by
  cases op with
  | enq t hi =>
      cases hi <;> simp [qstep, enqueue, enqNorm]
  | deq =>
      rcases r with ⟨⟨qh, qn⟩, outH, outN⟩
      cases qh with
      | nil => cases qn <;> simp [qstep, dequeue, enqNorm]
      | cons h hs => simp [qstep, dequeue, enqNorm]

theorem enqHigh_cons (op : QOp) (ops : List QOp) :
    enqHigh (op :: ops) = enqHigh [op] ++ enqHigh ops := by
  simp only [enqHigh]
  rw [← List.filterMap_append]
  rfl

theorem enqNorm_cons (op : QOp) (ops : List QOp) :
    enqNorm (op :: ops) = enqNorm [op] ++ enqNorm ops := by
  simp only [enqNorm]
  rw [← List.filterMap_append]
  rfl

theorem qexec_high_stream (ops : List QOp) :
    ∀ r : QRun,
      (qexec r ops).outHigh ++ (qexec r ops).q.high
        = r.outHigh ++ r.q.high ++ enqHigh ops := by
  induction ops with
  | nil => intro r; simp [qexec, enqHigh]
  | cons op rest ih =>
      intro r
      rw [qexec_cons, ih (qstep r op), qstep_high_stream, enqHigh_cons op rest]
      simp [List.append_assoc]

theorem qexec_norm_stream (ops : List QOp) :
    ∀ r : QRun,
      (qexec r ops).outNorm ++ (qexec r ops).q.normal
        = r.outNorm ++ r.q.normal ++ enqNorm ops := by
  induction ops with
  | nil => intro r; simp [qexec, enqNorm]
  | cons op rest ih =>
      intro r
      rw [qexec_cons, ih (qstep r op), qstep_norm_stream, enqNorm_cons op rest]
      simp [List.append_assoc]

/-- C5: For every Queue and every execution of its owning worker, a task
from the normal-priority section is dequeued only when the high-priority
section is empty, and within each priority section tasks are dequeued in
FIFO order of their enqueues. -/
theorem queue_priority_fifo :
    (∀ (q : WorkQueue) (t : Nat) (q2 : WorkQueue),
        dequeue q = some ((t, false), q2) → q.high = [])
    ∧ ∀ ops : List QOp,
        (qexec ⟨emptyQueue, [], []⟩ ops).outHigh
            ++ (qexec ⟨emptyQueue, [], []⟩ ops).q.high = enqHigh ops
        ∧ (qexec ⟨emptyQueue, [], []⟩ ops).outNorm
            ++ (qexec ⟨emptyQueue, [], []⟩ ops).q.normal = enqNorm ops := by
  constructor
  · intro q t q2 h
    rcases q with ⟨qh, qn⟩
    cases qh with
    | nil => rfl
    | cons x xs => simp [dequeue] at h
  · intro ops
    constructor
    · have := qexec_high_stream ops ⟨emptyQueue, [], []⟩
      simpa [emptyQueue] using this
    · have := qexec_norm_stream ops ⟨emptyQueue, [], []⟩
      simpa [emptyQueue] using this

theorem queue_priority_fifo_witness :
    (WorkQueue.mk [] [5]).high = [] :=
  queue_priority_fifo.1 (WorkQueue.mk [] [5]) 5 (WorkQueue.mk [] [])
    (by decide)

/-- C3: For every call to postAsyncIo with an explicit queueId, the
queueId is accepted if and only if it is IQueue::QueueId::Any or lies in
[0, numIoThreads); any other value is rejected synchronously with
InvalidArgument before the task is enqueued. -/
theorem postAsyncIo_queueId_validation (numIoThreads : Nat)
    (queues : List WorkQueue) (queueId : QueueIdParam) (hi : Bool)
    (task : Nat) :
    (isAccepted (postAsyncIo numIoThreads queues queueId hi task).1 = true
      ↔ queueId = QueueIdParam.anyQueue
        ∨ ∃ n : Int, queueId = QueueIdParam.atQueue n
            ∧ 0 ≤ n ∧ n < (numIoThreads : Int))
    ∧ (isAccepted (postAsyncIo numIoThreads queues queueId hi task).1 = false →
        postAsyncIo numIoThreads queues queueId hi task
          = (Except.error ErrorKind.invalidArgument, queues)) := by
  cases queueId with
  | anyQueue =>
      constructor
      · simp [postAsyncIo, isAccepted]
      · intro h
        simp [postAsyncIo, isAccepted] at h
  | sameQueue =>
      constructor
      · simp [postAsyncIo, isAccepted]
      · intro _
        rfl
  | allQueues =>
      constructor
      · simp [postAsyncIo, isAccepted]
      · intro _
        rfl
  | atQueue n =>
      have hred : postAsyncIo numIoThreads queues (QueueIdParam.atQueue n) hi task
          = if 0 ≤ n ∧ n < (numIoThreads : Int) then
              (Except.ok (), enqueueAt queues (Int.toNat n) task hi)
            else (Except.error ErrorKind.invalidArgument, queues) := rfl
      by_cases hc : 0 ≤ n ∧ n < (numIoThreads : Int)
      · rw [hred, if_pos hc]
        constructor
        · constructor
          · intro _
            exact Or.inr ⟨n, rfl, hc.1, hc.2⟩
          · intro _
            rfl
        · intro h
          simp [isAccepted] at h
      · rw [hred, if_neg hc]
        constructor
        · constructor
          · intro h
            simp [isAccepted] at h
          · rintro (h | ⟨m, hm, hm0, hmlt⟩)
            · exact QueueIdParam.noConfusion h
            · cases hm
              exact absurd ⟨hm0, hmlt⟩ hc
        · intro _
          rfl

theorem postAsyncIo_queueId_validation_witness :
    postAsyncIo 2 [emptyQueue, emptyQueue] (QueueIdParam.atQueue 7) false 42
      = (Except.error ErrorKind.invalidArgument, [emptyQueue, emptyQueue]) :=
  (postAsyncIo_queueId_validation 2 [emptyQueue, emptyQueue]
    (QueueIdParam.atQueue 7) false 42).2 (by decide)

/-- C6: terminate() is idempotent: for every dispatcher state, calling
terminate twice leaves the dispatcher in the same observable state as
calling it once, with the shutdown actions (signalling queues, joining
workers) performed only on the first call via a test-and-set on the
terminated flag. -/
theorem terminate_idempotent (d : Dispatcher) :
    terminate (terminate d) = terminate d
    ∧ (terminate d).terminated = true
    ∧ (d.terminated = true → terminate d = d)
    ∧ (d.terminated = false →
        (terminate d).queueSignalCount = d.queueSignalCount + 1
        ∧ (terminate d).workerJoinCount = d.workerJoinCount + 1
        ∧ (terminate d).workersAlive = false) := by
  rcases d with ⟨t, qs, wj, wa⟩
  cases t <;> simp [terminate]

theorem terminate_idempotent_witness :
    terminate (terminate (Dispatcher.mk false 0 0 true))
        = terminate (Dispatcher.mk false 0 0 true)
    ∧ (terminate (Dispatcher.mk false 0 0 true)).queueSignalCount = 0 + 1 :=
  ⟨(terminate_idempotent (Dispatcher.mk false 0 0 true)).1,
   ((terminate_idempotent (Dispatcher.mk false 0 0 true)).2.2.2 rfl).1⟩

/-- C7: While the drain flag is set, every post originating outside an
executing task is rejected, and every post originating from within an
already-executing task is accepted. -/
theorem drain_post_gating (drainFlag fromWithinTask : Bool)
    (queues : List WorkQueue) (queueId : Nat) (hi : Bool) (task : Nat) :
    (drainFlag = true → fromWithinTask = false →
        tryPost drainFlag fromWithinTask queues queueId hi task = none)
    ∧ (fromWithinTask = true →
        tryPost drainFlag fromWithinTask queues queueId hi task
          = some (enqueueAt queues queueId task hi)) := by
  constructor
  · intro h1 h2
    subst h1
    subst h2
    rfl
  · intro h
    subst h
    simp [tryPost]

theorem drain_post_gating_witness :
    tryPost true false [emptyQueue] 0 false 7 = none
    ∧ tryPost true true [emptyQueue] 0 false 7
        = some (enqueueAt [emptyQueue] 0 7 false) :=
  ⟨(drain_post_gating true false [emptyQueue] 0 false 7).1 rfl rfl,
   (drain_post_gating true true [emptyQueue] 0 false 7).2 rfl⟩

end Quantum
